import Mathlib

/-!
Verification of the automated-garden irrigation system: a shallow embedding of
the garden-controller firmware (watering interval task, watering queue and
consumer task, stop/stop-all interrupts, MQTT command handling and telemetry
publishing) and of the garden-app's zone/water-schedule logic (weather
adjustment evaluation, water-schedule deletion guard, Zone.Patch), together
with theorems settling the specification's claims about them.
-/

namespace Firmware

/-- Modulus of the 32-bit unsigned `millis()` counter (`unsigned long`). -/
def M32 : Nat := 2 ^ 32

/-- `INTERVAL` between watering cycles in milliseconds (24 hours). -/
def INTERVAL : Nat := 86400000

/-- `DEFAULT_WATER_TIME` in milliseconds. -/
def DEFAULT_WATER_TIME : Nat := 15000

/-- A watering event as carried on the FreeRTOS queues: plant/valve position,
requested duration in ms (overwritten with the elapsed time after execution),
and a correlation id. -/
structure WateringEvent where
  plant_position : Int
  duration : Nat
  id : String
  deriving DecidableEq

/-- Unsigned 32-bit subtraction `a - b` as computed on `unsigned long`. -/
def sub32 (a b : Nat) : Nat := (a % M32 + (M32 - b % M32)) % M32

/-- Initial value of `previousMillis`, the unsigned reading of `-INTERVAL`. -/
def previousMillisInit : Nat := sub32 0 INTERVAL

/-- One wake-up of `waterIntervalTask` at time `now`: if
`currentMillis - previousMillis >= INTERVAL` the task fires (queues the
watering round) and stores the current time into `previousMillis`; otherwise
`previousMillis` is left alone.  Returns the new `previousMillis` and whether
the task fired. -/
def waterIntervalStep (prev now : Nat) : Nat × Bool :=
  if INTERVAL ≤ sub32 now prev then (now % M32, true) else (prev, false)

/-- The fire instants produced by `waterIntervalTask` over a list of wake-up
instants, threading `previousMillis` through `waterIntervalStep`. -/
def fireInstants : List Nat → Nat → List Nat
  | [], _ => []
  | t :: ts, prev =>
    match waterIntervalStep prev t with
    | (p, true) => t :: fireInstants ts p
    | (p, false) => fireInstants ts p

/-- Duration normalization at the head of `waterPlantTask`: a zero requested
duration is replaced by `DEFAULT_WATER_TIME`. -/
def normalizeDuration (d : Nat) : Nat := if d = 0 then DEFAULT_WATER_TIME else d

/-- Elapsed time of `xTaskNotifyWait` with the given timeout when a
notification arrives `t` ms after the wait started (`notifyAt = some t`), or
never (`none`): the wait ends at the notification or at the timeout,
whichever is first. -/
def notifyWaitElapsed (timeout : Nat) (notifyAt : Option Nat) : Nat :=
  match notifyAt with
  | none => timeout
  | some t => min t timeout

/-- The wait was cut short by a notification arriving strictly before the
timeout. -/
def Interrupted (timeout : Nat) (notifyAt : Option Nat) : Prop :=
  ∃ t, notifyAt = some t ∧ t < timeout

/-- Body of `waterPlantTask` for one dequeued event: normalize a zero
duration, turn the plant on, wait for the (normalized) duration with the
option to be interrupted, turn the plant off, overwrite `duration` with the
elapsed time, and forward the event to `waterPublisherQueue`.  Returns the
events forwarded to the publisher queue. -/
def waterPlantBody (we : WateringEvent) (notifyAt : Option Nat) : List WateringEvent :=
  let d := normalizeDuration we.duration
  let elapsed := notifyWaitElapsed d notifyAt
  [{ we with duration := elapsed }]

/-- The telemetry line published by `waterPublisherTask` for one event,
abstracted to its fields: `water,plant=<position> millis=<duration>`. -/
def waterPublisherRecord (we : WateringEvent) : Int × Nat :=
  (we.plant_position, we.duration)

/-- `waterPlant`: rejects a plant position that is out of bounds
(`position >= NUM_PLANTS || position < 0`), otherwise appends the event to
the watering queue. -/
def waterPlant (numPlants : Int) (we : WateringEvent) (queue : List WateringEvent) :
    List WateringEvent :=
  if numPlants ≤ we.plant_position ∨ we.plant_position < 0 then queue
  else queue ++ [we]

/-- Handler of `waterCommandTopic` in `processIncomingMessage`: builds the
WateringEvent with missing JSON fields defaulted (`plant_position` to -1,
`duration` to 0, `id` to "N/A") and calls `waterPlant`. -/
def processWaterCommand (numPlants : Int) (pos : Option Int) (dur : Option Nat)
    (ident : Option String) (queue : List WateringEvent) : List WateringEvent :=
  waterPlant numPlants
    { plant_position := pos.getD (-1), duration := dur.getD 0, id := ident.getD "N/A" }
    queue

/-- State of the command-execution core: the watering queue, the event being
executed (with its normalized duration and the ms elapsed so far), the
pending task notification, the events forwarded to the publisher queue so
far, and the log of valve-on actuations. -/
structure SysState where
  queue : List WateringEvent
  running : Option (WateringEvent × Nat × Nat)
  notify : Bool
  records : List WateringEvent
  valveOns : List Int
  deriving DecidableEq

/-- One deterministic step of the consumer task `waterPlantTask`.  While an
event executes: a pending notification ends the wait immediately (elapsed
time recorded, valve off, event forwarded), the timeout ends it with the full
duration, otherwise one ms elapses.  While idle: the next queued event is
dequeued, stale notifications are cleared (`ulTaskNotifyTake`), the zero
duration is normalized and the valve is turned on. -/
def step (s : SysState) : SysState :=
  match s.running with
  | some (we, d, t) =>
    if s.notify then
      { s with running := none, notify := false,
               records := s.records ++ [{ we with duration := t }] }
    else if d ≤ t then
      { s with running := none,
               records := s.records ++ [{ we with duration := d }] }
    else
      { s with running := some (we, d, t + 1) }
  | none =>
    match s.queue with
    | [] => s
    | we :: rest =>
      { s with queue := rest, notify := false,
               running := some (we, normalizeDuration we.duration, 0),
               valveOns := s.valveOns ++ [we.plant_position] }

/-- Iterate `step`. -/
def run : Nat → SysState → SysState
  | 0, s => s
  | n + 1, s => run n (step s)

/-- `stopAllWatering`: `xQueueReset` empties the watering queue and
`xTaskNotify` raises the interrupt for the consumer task. -/
def stopAllWatering (s : SysState) : SysState :=
  { s with queue := [], notify := true }

theorem step_fix (b : Bool) (rs : List WateringEvent) (vs : List Int) :
    step ⟨[], none, b, rs, vs⟩ = ⟨[], none, b, rs, vs⟩ := rfl

theorem run_fix (n : Nat) (s : SysState) (h : step s = s) : run n s = s := by
  induction n with
  | zero => rfl
  | succ n ih => rw [run, h, ih]

theorem sub32_eq (a b : Nat) (hb : b ≤ a) (ha : a < M32) : sub32 a b = a - b := by
  have hbM : b < M32 := lt_of_le_of_lt hb ha
  have hM : 0 < M32 := by decide
  unfold sub32
  rw [Nat.mod_eq_of_lt ha, Nat.mod_eq_of_lt hbM]
  have h1 : a + (M32 - b) = M32 + (a - b) := by omega
  rw [h1, Nat.add_mod_left]
  exact Nat.mod_eq_of_lt (by omega)

theorem chain_le_of_le {a b : Nat} {l : List Nat} (hab : a ≤ b)
    (h : List.Chain (· ≤ ·) b l) : List.Chain (· ≤ ·) a l := by
  cases h with
  | nil => exact .nil
  | cons hbc hc => exact .cons (le_trans hab hbc) hc

/-- C1: the claim that consecutive fire instants differ by exactly `INTERVAL`
regardless of execution delay is false of `waterIntervalTask`: starting from
the initial `previousMillis = -INTERVAL`, wake-ups at 0 and at
`INTERVAL + 100` (a fire delayed by 100 ms) both fire, and the two fire
instants differ by `INTERVAL + 100`, not `INTERVAL`. -/
theorem waterIntervalTask_phase_drift_counterexample :
    fireInstants [0, INTERVAL + 100] previousMillisInit = [0, INTERVAL + 100] ∧
    (INTERVAL + 100) - 0 ≠ INTERVAL := by
  constructor
  · rfl
  · decide

/-- C1 (amended): on each fire, `waterIntervalTask` stores the current wake-up
time into `previousMillis` — not the previous instant plus `INTERVAL` — so
consecutive fire instants are at least `INTERVAL` apart (for wake-up times
below the 32-bit wrap, in increasing order) but the phase drifts by the
execution delay. -/
theorem waterIntervalTask_fire_gap_at_least_interval (ts : List Nat) (prev : Nat)
    (hlt : ∀ x ∈ ts, x < M32) (hprev : prev < M32)
    (hchain : List.Chain (· ≤ ·) prev ts) :
    List.Chain (fun a b => a + INTERVAL ≤ b) prev (fireInstants ts prev) ∧
    ∀ p n, (waterIntervalStep p n).2 = true → (waterIntervalStep p n).1 = n % M32 := by
  constructor
  · induction ts generalizing prev with
    | nil => exact .nil
    | cons t ts ih =>
      cases hchain with
      | cons hpt hts =>
        have ht : t < M32 := hlt t (by simp)
        have hsub : sub32 t prev = t - prev := sub32_eq t prev hpt ht
        by_cases hfire : INTERVAL ≤ sub32 t prev
        · have hstep : waterIntervalStep prev t = (t, true) := by
            simp [waterIntervalStep, hfire, Nat.mod_eq_of_lt ht]
          have hrec := ih t (fun x hx => hlt x (by simp [hx])) ht hts
          have : fireInstants (t :: ts) prev = t :: fireInstants ts t := by
            simp [fireInstants, hstep]
          rw [this]
          exact .cons (by omega) hrec
        · have hstep : waterIntervalStep prev t = (prev, false) := by
            simp [waterIntervalStep, hfire]
          have : fireInstants (t :: ts) prev = fireInstants ts prev := by
            simp [fireInstants, hstep]
          rw [this]
          exact ih prev (fun x hx => hlt x (by simp [hx])) hprev (chain_le_of_le hpt hts)
  · intro p n h
    unfold waterIntervalStep at h ⊢
    by_cases hc : INTERVAL ≤ sub32 n p
    · simp [hc]
    · simp [hc] at h

/-- Witness for the amended C1 theorem at a concrete wake-up trace. -/
theorem waterIntervalTask_fire_gap_witness :
    List.Chain (fun a b => a + INTERVAL ≤ b) 0
      (fireInstants [86400000, 172800005] 0) :=
  (waterIntervalTask_fire_gap_at_least_interval [86400000, 172800005] 0
    (by decide) (by decide) (.cons (by decide) (.cons (by decide) .nil))).1

/-- C2: executing a dequeued non-skip event (positive requested duration)
forwards exactly one record to the publisher queue; its recorded duration is
at most the requested duration, with equality exactly when the wait was not
interrupted. -/
theorem waterPlantTask_one_record (we : WateringEvent) (notifyAt : Option Nat)
    (hpos : 0 < we.duration) :
    (waterPlantBody we notifyAt).length = 1 ∧
    ∀ rec ∈ waterPlantBody we notifyAt,
      rec.duration ≤ we.duration ∧
      (rec.duration = we.duration ↔ ¬ Interrupted we.duration notifyAt) := by
  have hd : normalizeDuration we.duration = we.duration := by
    simp [normalizeDuration, Nat.pos_iff_ne_zero.mp hpos]
  constructor
  · rfl
  · intro rec hrec
    simp only [waterPlantBody, hd, List.mem_singleton] at hrec
    subst hrec
    cases notifyAt with
    | none => simp [notifyWaitElapsed, Interrupted]
    | some t =>
      refine ⟨?_, ?_⟩
      · show min t we.duration ≤ we.duration
        exact min_le_right t we.duration
      · show min t we.duration = we.duration ↔ ¬ Interrupted we.duration (some t)
        constructor
        · intro h hint
          obtain ⟨t2, ht2, hlt⟩ := hint
          obtain rfl : t2 = t := by
            injection ht2 with h2
            exact h2.symm
          omega
        · intro h
          have hnot : ¬ t < we.duration := fun hlt => h ⟨t, rfl, hlt⟩
          omega

/-- Witness for C2 at a concrete event interrupted after 1000 ms. -/
theorem waterPlantTask_one_record_witness :
    (waterPlantBody ⟨0, 5000, "w"⟩ (some 1000)).length = 1 :=
  (waterPlantTask_one_record ⟨0, 5000, "w"⟩ (some 1000) (by decide)).1

/-- C5: a dequeued event with requested duration 0 is normalized to
`DEFAULT_WATER_TIME` before the valve is opened, and the normalized duration
is always positive, so the valve is never opened for zero time. -/
theorem waterPlantTask_zero_duration_normalized (we : WateringEvent)
    (rest : List WateringEvent) (s : SysState)
    (h1 : s.running = none) (h2 : s.queue = we :: rest) :
    normalizeDuration 0 = DEFAULT_WATER_TIME ∧
    (∀ d : Nat, 0 < normalizeDuration d) ∧
    (step s).running = some (we, normalizeDuration we.duration, 0) := by
  refine ⟨rfl, ?_, ?_⟩
  · intro d
    simp only [normalizeDuration]
    split
    · decide
    · omega
  · obtain ⟨q, r, nt, rec, v⟩ := s
    simp only at h1 h2
    subst h1
    subst h2
    rfl

/-- Witness for C5 at a concrete zero-duration event at the queue head. -/
theorem waterPlantTask_zero_duration_witness :
    (step ⟨[⟨1, 0, "m"⟩], none, false, [], []⟩).running =
      some (⟨1, 0, "m"⟩, normalizeDuration 0, 0) :=
  (waterPlantTask_zero_duration_normalized ⟨1, 0, "m"⟩ []
    ⟨[⟨1, 0, "m"⟩], none, false, [], []⟩ rfl rfl).2.2

/-- C8: `waterPlant` preserves the queue invariant that every queued event has
a position in `[0, numPlants)` — out-of-range events are rejected before the
queue send — and an inbound water command with a missing `plant_position`
field defaults to -1 and leaves the queue unchanged. -/
theorem waterPlant_bounds (numPlants : Int) (we : WateringEvent)
    (queue : List WateringEvent)
    (hinv : ∀ e ∈ queue, 0 ≤ e.plant_position ∧ e.plant_position < numPlants) :
    (∀ e ∈ waterPlant numPlants we queue,
      0 ≤ e.plant_position ∧ e.plant_position < numPlants) ∧
    ∀ (dur : Option Nat) (ident : Option String),
      processWaterCommand numPlants none dur ident queue = queue := by
  constructor
  · intro e he
    unfold waterPlant at he
    split at he
    · exact hinv e he
    · rename_i hc
      push_neg at hc
      rcases List.mem_append.mp he with h | h
      · exact hinv e h
      · simp only [List.mem_singleton] at h
        subst h
        exact ⟨hc.2, hc.1⟩
  · intro dur ident
    simp [processWaterCommand, waterPlant]

/-- Witness for C8: a missing-position command against a well-formed queue. -/
theorem waterPlant_bounds_witness :
    processWaterCommand 3 none (some 5) (some "x") [⟨0, 5, "a"⟩] = [⟨0, 5, "a"⟩] :=
  (waterPlant_bounds 3 ⟨2, 7, "b"⟩ [⟨0, 5, "a"⟩] (by decide)).2 (some 5) (some "x")

/-- C4: processing a stop-all signal empties the watering queue; the drained
events never actuate a valve and never produce a telemetry record; at most
one record is forwarded — the in-flight event's, if any — and that record
holds the elapsed time at the interrupt, strictly less than the requested
duration. -/
theorem stopAll_drains_and_interrupts (pending : List WateringEvent)
    (cur : Option (WateringEvent × Nat × Nat)) (fuel : Nat) :
    (run fuel (stopAllWatering ⟨pending, cur, false, [], []⟩)).queue = [] ∧
    (run fuel (stopAllWatering ⟨pending, cur, false, [], []⟩)).valveOns = [] ∧
    (run fuel (stopAllWatering ⟨pending, cur, false, [], []⟩)).records.length ≤ 1 ∧
    (cur = none → (run fuel (stopAllWatering ⟨pending, cur, false, [], []⟩)).records = []) ∧
    (∀ we d t, cur = some (we, d, t) → 1 ≤ fuel → t < d →
      (run fuel (stopAllWatering ⟨pending, cur, false, [], []⟩)).records =
        [{ we with duration := t }] ∧
      ∀ rec ∈ (run fuel (stopAllWatering ⟨pending, cur, false, [], []⟩)).records,
        rec.duration < d) := by
  have h0 : stopAllWatering ⟨pending, cur, false, [], []⟩ =
      (⟨[], cur, true, [], []⟩ : SysState) := rfl
  rw [h0]
  cases cur with
  | none =>
    have hfix : step (⟨[], none, true, [], []⟩ : SysState) =
        ⟨[], none, true, [], []⟩ := rfl
    rw [run_fix fuel _ hfix]
    exact ⟨rfl, rfl, by simp, fun _ => rfl,
      fun we d t h => Option.noConfusion h⟩
  | some c =>
    obtain ⟨we, d, t⟩ := c
    cases fuel with
    | zero =>
      refine ⟨rfl, rfl, by simp [run], ?_, ?_⟩
      · intro h
        exact Option.noConfusion h
      · intro we2 d2 t2 h hf
        exact absurd hf (by decide)
    | succ n =>
      have h1 : run (n + 1) (⟨[], some (we, d, t), true, [], []⟩ : SysState) =
          run n (⟨[], none, false, [{ we with duration := t }], []⟩ : SysState) := rfl
      rw [h1, run_fix n _ (step_fix false [{ we with duration := t }] [])]
      refine ⟨rfl, rfl, by simp, ?_, ?_⟩
      · intro h
        exact Option.noConfusion h
      · intro we2 d2 t2 h hf hlt
        simp only [Option.some.injEq, Prod.mk.injEq] at h
        obtain ⟨rfl, rfl, rfl⟩ := h
        refine ⟨rfl, ?_⟩
        intro rec hrec
        simp only [List.mem_singleton] at hrec
        subst hrec
        simpa using hlt

/-- Witness for C4: stop-all with one pending event and an event 120 ms into
a 5000 ms watering. -/
theorem stopAll_drains_witness :
    (run 3 (stopAllWatering
      ⟨[⟨1, 9, "q"⟩], some (⟨0, 5000, "c"⟩, 5000, 120), false, [], []⟩)).records =
      [⟨0, 120, "c"⟩] :=
  ((stopAll_drains_and_interrupts [⟨1, 9, "q"⟩] (some (⟨0, 5000, "c"⟩, 5000, 120)) 3).2.2.2.2
    ⟨0, 5000, "c"⟩ 5000 120 rfl (by decide) (by decide)).1

end Firmware

namespace AppEval

/-- Soil-moisture control (`weather.SoilMoistureControl`): the minimum
moisture percentage at or above which watering is skipped. -/
structure SoilMoistureControl where
  minimumMoisture : Int
  deriving DecidableEq

/-- Scaling control (`weather.ScaleControl`): baseline value, factor and
range used to scale the nominal duration. -/
structure ScaleControl where
  baselineValue : ℚ
  factor : ℚ
  range : ℚ
  deriving DecidableEq

/-- Rain control: threshold form or scaling form; per the spec the two forms
are alternatives and threshold-presence wins when both could apply. -/
structure RainControl where
  threshold : Option ℚ
  scale : Option ScaleControl
  deriving DecidableEq

/-- Weather control with up to three independent sub-controls. -/
structure Control where
  rain : Option RainControl
  soilMoisture : Option SoilMoistureControl
  temperature : Option ScaleControl
  deriving DecidableEq

/-- The fields of a WaterSchedule used by the evaluator: the nominal watering
duration and the optional weather control. -/
structure WaterSchedule where
  duration : ℚ
  weatherControl : Option Control
  deriving DecidableEq

/-- `HasSoilMoistureControl`: the weather control is defined, has a
soil-moisture sub-control, and its minimum moisture is positive. -/
def hasSoilMoistureControl (ws : WaterSchedule) : Bool :=
  match ws.weatherControl with
  | none => false
  | some wc =>
    match wc.soilMoisture with
    | none => false
    | some sm => 0 < sm.minimumMoisture

/-- The configured minimum moisture, 0 when no soil-moisture control. -/
def minMoisture (ws : WaterSchedule) : Int :=
  match ws.weatherControl with
  | none => 0
  | some wc =>
    match wc.soilMoisture with
    | none => 0
    | some sm => sm.minimumMoisture

/-- The configured rain threshold, when the rain control is in threshold
form. -/
def rainThreshold (ws : WaterSchedule) : Option ℚ :=
  match ws.weatherControl with
  | none => none
  | some wc =>
    match wc.rain with
    | none => none
    | some rc => rc.threshold

/-- `HasRainControl` in threshold form. -/
def hasRainThresholdControl (ws : WaterSchedule) : Bool :=
  (rainThreshold ws).isSome

/-- Live readings consumed by one evaluation; each provider read is
fallible. -/
structure Readings where
  moisture : Except String ℚ
  totalRain : Except String ℚ
  avgHighTemperature : Except String ℚ

/-- Modelled from the spec: the scale factor
`clamp(1 + factor * (observed - baseline) / range, 0, upper_bound)` of a
scaling control (garden-app's worker scaling code is not under src). -/
def scaleFactor (sc : ScaleControl) (observed ub : ℚ) : ℚ :=
  max 0 (min (1 + sc.factor * (observed - sc.baselineValue) / sc.range) ub)

/-- The decision of one evaluation: skip, or proceed with a duration. -/
inductive Decision where
  | skip : Decision
  | proceed : ℚ → Decision
  deriving DecidableEq

/-- The rain scaling control to apply, if any: only when the rain control is
present without a threshold (threshold-presence wins). -/
def rainScaleOf (wc : Control) : Option ScaleControl :=
  match wc.rain with
  | none => none
  | some rc =>
    match rc.threshold with
    | some _ => none
    | none => rc.scale

/-- Modelled from the spec: step 3-4 of the Weather Adjustment Evaluator for
the temperature control — scale the nominal duration by the accumulated
scale factor, reading the average-high temperature when a temperature
control is present (`ExecuteWaterAction` is not under src). -/
def evalTempScale (wc : Control) (nominal : ℚ) (r : Readings) (ub s : ℚ) :
    Except String Decision :=
  match wc.temperature with
  | none => .ok (.proceed (nominal * s))
  | some sc =>
    match r.avgHighTemperature with
    | .error e => .error e
    | .ok temp => .ok (.proceed (nominal * (s * scaleFactor sc temp ub)))

/-- Modelled from the spec: step 3 of the evaluator for the rain scaling
form, reading the accumulated rain when rain scaling applies. -/
def evalScale (wc : Control) (nominal : ℚ) (r : Readings) (ub : ℚ) :
    Except String Decision :=
  match rainScaleOf wc with
  | none => evalTempScale wc nominal r ub 1
  | some sc =>
    match r.totalRain with
    | .error e => .error e
    | .ok rain => evalTempScale wc nominal r ub (scaleFactor sc rain ub)

/-- Modelled from the spec: step 2 of the evaluator — skip when the
accumulated rain over the look-back window reaches the threshold
(inclusive). -/
def evalRainSkip (wc : Control) (nominal : ℚ) (r : Readings) (ub : ℚ) :
    Except String Decision :=
  match wc.rain with
  | none => evalScale wc nominal r ub
  | some rc =>
    match rc.threshold with
    | none => evalScale wc nominal r ub
    | some th =>
      match r.totalRain with
      | .error e => .error e
      | .ok rain => if th ≤ rain then .ok .skip else evalScale wc nominal r ub

/-- Modelled from the spec: step 1 of the evaluator — skip when a
soil-moisture control is configured (positive minimum) and the moisture
reading is at or above the minimum. -/
def evalSoil (wc : Control) (nominal : ℚ) (r : Readings) (ub : ℚ) :
    Except String Decision :=
  match wc.soilMoisture with
  | none => evalRainSkip wc nominal r ub
  | some sm =>
    if 0 < sm.minimumMoisture then
      match r.moisture with
      | .error e => .error e
      | .ok m =>
        if (sm.minimumMoisture : ℚ) ≤ m then .ok .skip
        else evalRainSkip wc nominal r ub
    else evalRainSkip wc nominal r ub

/-- Modelled from the spec: the Weather Adjustment Evaluator
(`ExecuteWaterAction`, not under src) — pure evaluation of a schedule's
weather control against live readings, failing when a needed provider read
fails. -/
def evaluateWaterAction (ws : WaterSchedule) (r : Readings) (ub : ℚ) :
    Except String Decision :=
  match ws.weatherControl with
  | none => .ok (.proceed ws.duration)
  | some wc => evalSoil wc ws.duration r ub

/-- Modelled from the spec: the Command Dispatcher — a zero or skip decision
dispatches nothing, otherwise the resolved duration is published. -/
def dispatch (d : Decision) : List ℚ :=
  match d with
  | .skip => []
  | .proceed dur => if dur = 0 then [] else [dur]

/-- Commands published by one scheduling fire: a failed evaluation publishes
nothing. -/
def fireCommands (ws : WaterSchedule) (r : Readings) (ub : ℚ) : List ℚ :=
  match evaluateWaterAction ws r ub with
  | .error _ => []
  | .ok d => dispatch d

/-- A scheduled recurring job: schedule identifier, next-fire instant and
interval. -/
structure Job where
  id : Nat
  nextFire : Nat
  interval : Nat
  deriving DecidableEq

/-- Modelled from the spec: engine-level failures never abort the recurring
Job — on fire the job table keeps every job, the fired job being rescheduled,
whatever the evaluation result. -/
def onFire (j : Job) (ws : WaterSchedule) (r : Readings) (ub : ℚ)
    (table : List Job) : List Job × List ℚ :=
  (table.map (fun x =>
    if x.id = j.id then { x with nextFire := x.nextFire + x.interval } else x),
   fireCommands ws r ub)

/-- C3: with a soil-moisture control of positive minimum M, a moisture
reading at or above M makes the evaluation skip — no command is published —
for every configuration of the scaling controls and every upper bound; a
reading below M (with no other controls configured) proceeds with the
nominal duration, which is published when nonzero. -/
theorem soil_moisture_skip_precedence (ws : WaterSchedule) (r : Readings)
    (ub m : ℚ) :
    (hasSoilMoistureControl ws = true → r.moisture = Except.ok m →
      (minMoisture ws : ℚ) ≤ m →
      evaluateWaterAction ws r ub = Except.ok Decision.skip ∧
      fireCommands ws r ub = []) ∧
    (hasSoilMoistureControl ws = true → r.moisture = Except.ok m →
      m < (minMoisture ws : ℚ) →
      (∀ wc, ws.weatherControl = some wc → wc.rain = none ∧ wc.temperature = none) →
      evaluateWaterAction ws r ub = Except.ok (Decision.proceed ws.duration) ∧
      (ws.duration ≠ 0 → fireCommands ws r ub = [ws.duration])) := by
  constructor
  · intro hs hm hle
    cases hws : ws.weatherControl with
    | none => simp [hasSoilMoistureControl, hws] at hs
    | some wc =>
      cases hsm : wc.soilMoisture with
      | none => simp [hasSoilMoistureControl, hws, hsm] at hs
      | some sm =>
        have hpos : 0 < sm.minimumMoisture := by
          simpa [hasSoilMoistureControl, hws, hsm] using hs
        simp only [minMoisture, hws, hsm] at hle
        have heval : evaluateWaterAction ws r ub = Except.ok Decision.skip := by
          simp [evaluateWaterAction, hws, evalSoil, hsm, hpos, hm, hle]
        exact ⟨heval, by simp [fireCommands, heval, dispatch]⟩
  · intro hs hm hlt hno
    cases hws : ws.weatherControl with
    | none => simp [hasSoilMoistureControl, hws] at hs
    | some wc =>
      obtain ⟨hrain, htemp⟩ := hno wc hws
      cases hsm : wc.soilMoisture with
      | none => simp [hasSoilMoistureControl, hws, hsm] at hs
      | some sm =>
        have hpos : 0 < sm.minimumMoisture := by
          simpa [hasSoilMoistureControl, hws, hsm] using hs
        simp only [minMoisture, hws, hsm] at hlt
        have hnle : ¬ ((sm.minimumMoisture : ℚ) ≤ m) := not_le.mpr hlt
        have heval : evaluateWaterAction ws r ub =
            Except.ok (Decision.proceed ws.duration) := by
          simp [evaluateWaterAction, hws, evalSoil, hsm, hpos, hm, hnle,
                evalRainSkip, hrain, evalScale, rainScaleOf, evalTempScale, htemp]
        refine ⟨heval, ?_⟩
        intro hne
        simp [fireCommands, heval, dispatch, hne]

/-- Schedule for the C3 witness: soil-moisture control with minimum 50. -/
def wsSoil : WaterSchedule := ⟨1000, some ⟨none, some ⟨50⟩, none⟩⟩

/-- Readings for the C3 witness: observed moisture 51. -/
def rSoil : Readings := ⟨Except.ok 51, Except.ok 0, Except.ok 0⟩

/-- Witness for C3: minimum 50, reading 51 skips. -/
theorem soil_moisture_skip_witness :
    evaluateWaterAction wsSoil rSoil 2 = Except.ok Decision.skip ∧
    fireCommands wsSoil rSoil 2 = [] :=
  (soil_moisture_skip_precedence wsSoil rSoil 2 51).1 rfl rfl
    (by norm_num [minMoisture, wsSoil])

/-- C6: with a rain control in threshold form, accumulated rain at or above
the threshold (inclusive) makes the evaluation skip and publishes nothing,
for any soil-moisture reading that is available. -/
theorem rain_threshold_inclusive_skip (ws : WaterSchedule) (r : Readings)
    (ub rv : ℚ)
    (hrt : hasRainThresholdControl ws = true)
    (hr : r.totalRain = Except.ok rv)
    (hth : ∀ th, rainThreshold ws = some th → th ≤ rv)
    (hmo : hasSoilMoistureControl ws = true → ∃ m, r.moisture = Except.ok m) :
    evaluateWaterAction ws r ub = Except.ok Decision.skip ∧
    fireCommands ws r ub = [] := by
  cases hws : ws.weatherControl with
  | none => simp [hasRainThresholdControl, rainThreshold, hws] at hrt
  | some wc =>
    cases hrc : wc.rain with
    | none => simp [hasRainThresholdControl, rainThreshold, hws, hrc] at hrt
    | some rc =>
      cases hthf : rc.threshold with
      | none => simp [hasRainThresholdControl, rainThreshold, hws, hrc, hthf] at hrt
      | some th =>
        have hle : th ≤ rv := hth th (by simp [rainThreshold, hws, hrc, hthf])
        have hskip : evalRainSkip wc ws.duration r ub = Except.ok Decision.skip := by
          simp [evalRainSkip, hrc, hthf, hr, hle]
        have heval : evaluateWaterAction ws r ub = Except.ok Decision.skip := by
          cases hsm : wc.soilMoisture with
          | none => simp [evaluateWaterAction, hws, evalSoil, hsm, hskip]
          | some sm =>
            by_cases hpos : 0 < sm.minimumMoisture
            · obtain ⟨m, hm⟩ := hmo (by simp [hasSoilMoistureControl, hws, hsm, hpos])
              by_cases hmle : (sm.minimumMoisture : ℚ) ≤ m
              · simp [evaluateWaterAction, hws, evalSoil, hsm, hpos, hm, hmle]
              · simp [evaluateWaterAction, hws, evalSoil, hsm, hpos, hm, hmle, hskip]
            · simp [evaluateWaterAction, hws, evalSoil, hsm, hpos, hskip]
        exact ⟨heval, by simp [fireCommands, heval, dispatch]⟩

/-- Schedule for the C6 witness: rain threshold 25.4 mm. -/
def wsRain : WaterSchedule := ⟨1000, some ⟨some ⟨some (127 / 5), none⟩, none, none⟩⟩

/-- Readings for the C6 witness: observed 72h rain exactly 25.4 mm. -/
def rRain : Readings := ⟨Except.ok 0, Except.ok (127 / 5), Except.ok 0⟩

/-- Witness for C6: rain 25.4 mm against threshold 25.4 mm skips — the
comparison is inclusive. -/
theorem rain_threshold_inclusive_witness :
    evaluateWaterAction wsRain rRain 2 = Except.ok Decision.skip ∧
    fireCommands wsRain rRain 2 = [] :=
  rain_threshold_inclusive_skip wsRain rRain 2 (127 / 5) rfl rfl
    (by
      intro th hth
      simp only [rainThreshold, wsRain, Option.some.injEq] at hth
      rw [hth])
    (fun h => absurd h (by decide))

/-- C7: a failed moisture or weather provider read fails the evaluation —
the error is reported to the caller, no command is published for that cycle —
and the recurring job table is unaffected by the fire. -/
theorem provider_error_skips_cycle (ws : WaterSchedule) (r : Readings)
    (ub m : ℚ) (e : String) (j : Job) (table : List Job) :
    (hasSoilMoistureControl ws = true → r.moisture = Except.error e →
      evaluateWaterAction ws r ub = Except.error e ∧ fireCommands ws r ub = []) ∧
    (hasSoilMoistureControl ws = false → hasRainThresholdControl ws = true →
      r.totalRain = Except.error e →
      evaluateWaterAction ws r ub = Except.error e ∧ fireCommands ws r ub = []) ∧
    (hasSoilMoistureControl ws = true → r.moisture = Except.ok m →
      m < (minMoisture ws : ℚ) → hasRainThresholdControl ws = true →
      r.totalRain = Except.error e →
      evaluateWaterAction ws r ub = Except.error e ∧ fireCommands ws r ub = []) ∧
    ((onFire j ws r ub table).1.map Job.id = table.map Job.id) := by
  refine ⟨?_, ?_, ?_, ?_⟩
  · intro hs hm
    cases hws : ws.weatherControl with
    | none => simp [hasSoilMoistureControl, hws] at hs
    | some wc =>
      cases hsm : wc.soilMoisture with
      | none => simp [hasSoilMoistureControl, hws, hsm] at hs
      | some sm =>
        have hpos : 0 < sm.minimumMoisture := by
          simpa [hasSoilMoistureControl, hws, hsm] using hs
        have heval : evaluateWaterAction ws r ub = Except.error e := by
          simp [evaluateWaterAction, hws, evalSoil, hsm, hpos, hm]
        exact ⟨heval, by simp [fireCommands, heval]⟩
  · intro hs hrt hr
    cases hws : ws.weatherControl with
    | none => simp [hasRainThresholdControl, rainThreshold, hws] at hrt
    | some wc =>
      cases hrc : wc.rain with
      | none => simp [hasRainThresholdControl, rainThreshold, hws, hrc] at hrt
      | some rc =>
        cases hthf : rc.threshold with
        | none =>
          simp [hasRainThresholdControl, rainThreshold, hws, hrc, hthf] at hrt
        | some th =>
          have hskip : evalRainSkip wc ws.duration r ub = Except.error e := by
            simp [evalRainSkip, hrc, hthf, hr]
          have heval : evaluateWaterAction ws r ub = Except.error e := by
            cases hsm : wc.soilMoisture with
            | none => simp [evaluateWaterAction, hws, evalSoil, hsm, hskip]
            | some sm =>
              have hnpos : ¬ 0 < sm.minimumMoisture := by
                simpa [hasSoilMoistureControl, hws, hsm] using hs
              simp [evaluateWaterAction, hws, evalSoil, hsm, hnpos, hskip]
          exact ⟨heval, by simp [fireCommands, heval]⟩
  · intro hs hm hlt hrt hr
    cases hws : ws.weatherControl with
    | none => simp [hasSoilMoistureControl, hws] at hs
    | some wc =>
      cases hsm : wc.soilMoisture with
      | none => simp [hasSoilMoistureControl, hws, hsm] at hs
      | some sm =>
        have hpos : 0 < sm.minimumMoisture := by
          simpa [hasSoilMoistureControl, hws, hsm] using hs
        simp only [minMoisture, hws, hsm] at hlt
        have hnle : ¬ ((sm.minimumMoisture : ℚ) ≤ m) := not_le.mpr hlt
        cases hrc : wc.rain with
        | none => simp [hasRainThresholdControl, rainThreshold, hws, hrc] at hrt
        | some rc =>
          cases hthf : rc.threshold with
          | none =>
            simp [hasRainThresholdControl, rainThreshold, hws, hrc, hthf] at hrt
          | some th =>
            have heval : evaluateWaterAction ws r ub = Except.error e := by
              simp [evaluateWaterAction, hws, evalSoil, hsm, hpos, hm, hnle,
                    evalRainSkip, hrc, hthf, hr]
            exact ⟨heval, by simp [fireCommands, heval]⟩
  · have hid : ∀ x : Job,
        (if x.id = j.id then { x with nextFire := x.nextFire + x.interval } else x).id
          = x.id := by
      intro x
      split <;> rfl
    induction table with
    | nil => rfl
    | cons x xs ih =>
      simp only [onFire, List.map_cons] at ih ⊢
      rw [ih, hid x]

/-- Witness for C7: a schedule with a soil-moisture control and a failing
moisture read evaluates to the reported error and publishes nothing. -/
theorem provider_error_witness :
    evaluateWaterAction wsSoil ⟨Except.error "influxdb error", Except.ok 0, Except.ok 0⟩ 2 =
      Except.error "influxdb error" ∧
    fireCommands wsSoil ⟨Except.error "influxdb error", Except.ok 0, Except.ok 0⟩ 2 = [] :=
  (provider_error_skips_cycle wsSoil
    ⟨Except.error "influxdb error", Except.ok 0, Except.ok 0⟩ 2 0 "influxdb error"
    ⟨1, 0, 10⟩ []).1 rfl rfl

end AppEval

namespace Storage

/-- A Garden as relevant to the water-schedule deletion guard: identifier and
optional end date. -/
structure Garden where
  id : Nat
  endDate : Option Nat
  deriving DecidableEq

/-- A Zone as relevant to the deletion guard: owning garden, optional end
date, and the identifiers of the WaterSchedules it uses. -/
structure Zone where
  gardenID : Nat
  endDate : Option Nat
  waterScheduleIDs : List Nat
  deriving DecidableEq

/-- `EndDated`: the end date is set and lies before the current time. -/
def endDated (endDate : Option Nat) (now : Nat) : Bool :=
  match endDate with
  | none => false
  | some d => d < now

/-- `GetZonesUsingWaterSchedule`: over all non-end-dated Gardens, collect the
non-end-dated Zones of that garden that list the given WaterSchedule
identifier (once per matching listed identifier, as the Go loop appends). -/
def getZonesUsingWaterSchedule (gardens : List Garden) (zones : List Zone)
    (wsid : Nat) (now : Nat) : List Zone :=
  (gardens.filter (fun g => !endDated g.endDate now)).flatMap (fun g =>
    (zones.filter (fun z => z.gardenID == g.id && !endDated z.endDate now)).flatMap
      (fun z => (z.waterScheduleIDs.filter (fun x => x == wsid)).map (fun _ => z)))

/-- Error outcome of a delete request. -/
inductive DeleteError where
  | invalidRequest : DeleteError
  deriving DecidableEq

/-- The application state the delete endpoint touches: gardens, zones,
stored WaterSchedule identifiers, and the identifiers with scheduled jobs. -/
structure AppState where
  gardens : List Garden
  zones : List Zone
  waterSchedules : List Nat
  jobs : List Nat
  deriving DecidableEq

/-- The WaterSchedule DELETE flow: the before-delete hook looks up the zones
using the schedule and rejects with an invalid-request error when any exist
(leaving storage and jobs untouched); otherwise the schedule is deleted and
the after-delete hook removes its scheduled jobs. -/
def deleteWaterSchedule (s : AppState) (wsid : Nat) (now : Nat) :
    AppState × Option DeleteError :=
  let zs := getZonesUsingWaterSchedule s.gardens s.zones wsid now
  if 0 < zs.length then
    (s, some DeleteError.invalidRequest)
  else
    ({ s with waterSchedules := s.waterSchedules.filter (fun x => !(x == wsid)),
              jobs := s.jobs.filter (fun x => !(x == wsid)) }, none)

/-- Garden for the C9 counterexample: end-dated at time 0. -/
def gardenEnded : Garden := ⟨1, some 0⟩

/-- Zone for the C9 counterexample: not end-dated, references schedule 5,
but belongs to the end-dated garden. -/
def zoneLive : Zone := ⟨1, none, [5]⟩

/-- State for the C9 counterexample. -/
def stateEx : AppState := ⟨[gardenEnded], [zoneLive], [5], [5]⟩

/-- C9: the claim fails as stated — here a non-end-dated Zone references
WaterSchedule 5, yet because its Garden is end-dated the lookup finds no
zones, the delete succeeds (no invalid-request error) and both the stored
schedule and its jobs are removed. -/
theorem delete_guard_counterexample :
    endDated zoneLive.endDate 10 = false ∧
    zoneLive.waterScheduleIDs = [5] ∧
    (deleteWaterSchedule stateEx 5 10).2 = none ∧
    (deleteWaterSchedule stateEx 5 10).1.jobs = [] ∧
    (deleteWaterSchedule stateEx 5 10).1.waterSchedules = [] := by
  decide

/-- C9 (amended): deleting a WaterSchedule fails with an invalid-request
error — leaving the stored schedule and its jobs untouched — whenever at
least one non-end-dated Zone belonging to a non-end-dated Garden references
the identifier; the jobs (and stored schedule) are removed exactly when the
lookup finds no such zone. -/
theorem delete_guard_amended (s : AppState) (wsid now : Nat) :
    ((∃ g ∈ s.gardens, ∃ z ∈ s.zones,
        endDated g.endDate now = false ∧ z.gardenID = g.id ∧
        endDated z.endDate now = false ∧ wsid ∈ z.waterScheduleIDs) →
      deleteWaterSchedule s wsid now = (s, some DeleteError.invalidRequest)) ∧
    (getZonesUsingWaterSchedule s.gardens s.zones wsid now = [] →
      (deleteWaterSchedule s wsid now).2 = none ∧
      (deleteWaterSchedule s wsid now).1.waterSchedules =
        s.waterSchedules.filter (fun x => !(x == wsid)) ∧
      (deleteWaterSchedule s wsid now).1.jobs =
        s.jobs.filter (fun x => !(x == wsid)) ∧
      (deleteWaterSchedule s wsid now).1.gardens = s.gardens ∧
      (deleteWaterSchedule s wsid now).1.zones = s.zones) := by
  constructor
  · rintro ⟨g, hg, z, hz, hge, hzg, hze, hws⟩
    have hmem : z ∈ getZonesUsingWaterSchedule s.gardens s.zones wsid now := by
      simp only [getZonesUsingWaterSchedule, List.mem_flatMap, List.mem_filter,
        List.mem_map]
      refine ⟨g, ⟨hg, by simp [hge]⟩, z, ⟨hz, by simp [hzg, hze]⟩, ⟨wsid, ⟨hws, by simp⟩, rfl⟩⟩
    have hlen : 0 < (getZonesUsingWaterSchedule s.gardens s.zones wsid now).length :=
      List.length_pos_of_mem hmem
    simp [deleteWaterSchedule, hlen]
  · intro hempty
    simp [deleteWaterSchedule, hempty]

/-- Witness for amended C9: with the garden not end-dated, the referencing
zone blocks the delete and the state is untouched. -/
theorem delete_guard_witness :
    deleteWaterSchedule ⟨[⟨1, none⟩], [zoneLive], [5], [5]⟩ 5 10 =
      (⟨[⟨1, none⟩], [zoneLive], [5], [5]⟩, some DeleteError.invalidRequest) :=
  (delete_guard_amended ⟨[⟨1, none⟩], [zoneLive], [5], [5]⟩ 5 10).1
    ⟨⟨1, none⟩, by simp, zoneLive, by simp, by decide, rfl, by decide, by decide⟩

end Storage

namespace ZonePatch

/-- `weather.ScaleControl`: optional (pointer) baseline, factor and range. -/
structure ScaleControl where
  baselineValue : Option ℚ
  factor : Option ℚ
  range : Option ℚ
  deriving DecidableEq

/-- `weather.SoilMoistureControl`: the minimum moisture value. -/
structure SoilMoistureControl where
  minimumMoisture : Int
  deriving DecidableEq

/-- `weather.Control`: optional rain, soil-moisture and temperature
sub-controls. -/
structure WeatherControl where
  rain : Option ScaleControl
  soilMoisture : Option SoilMoistureControl
  temperature : Option ScaleControl
  deriving DecidableEq

/-- `pkg.WaterSchedule` as patched: duration, interval, start time and
weather control. -/
structure WaterSchedule where
  duration : String
  interval : String
  startTime : Option Nat
  weatherControl : Option WeatherControl
  deriving DecidableEq

/-- `pkg.ZoneDetails`: description and notes. -/
structure ZoneDetails where
  description : String
  notes : String
  deriving DecidableEq

/-- `pkg.Zone` as patched: name, details, position, creation and end dates,
and water schedule. -/
structure Zone where
  name : String
  details : Option ZoneDetails
  position : Option Nat
  createdAt : Option Nat
  endDate : Option Nat
  waterSchedule : Option WaterSchedule
  deriving DecidableEq

/-- The ScaleControl block of `Zone.Patch`: each pointer field of the patch
that is non-nil overwrites the target's field. -/
def patchScaleControl (z p : ScaleControl) : ScaleControl :=
  { baselineValue := if p.baselineValue.isSome then p.baselineValue else z.baselineValue,
    factor := if p.factor.isSome then p.factor else z.factor,
    range := if p.range.isSome then p.range else z.range }

/-- The SoilMoistureControl block of `Zone.Patch`: a nonzero
`MinimumMoisture` in the patch overwrites the target's. -/
def patchSoilMoistureControl (z p : SoilMoistureControl) : SoilMoistureControl :=
  { minimumMoisture := if p.minimumMoisture ≠ 0 then p.minimumMoisture
                       else z.minimumMoisture }

/-- The WeatherControl block of `Zone.Patch`: a nil target sub-control is
initialized to the zero value before its fields are patched; nil patch
sub-controls leave the target's sub-controls alone. -/
def patchWeatherControl (z : Option WeatherControl) (p : WeatherControl) :
    WeatherControl :=
  let z0 := z.getD ⟨none, none, none⟩
  { rain := match p.rain with
      | none => z0.rain
      | some pr => some (patchScaleControl (z0.rain.getD ⟨none, none, none⟩) pr),
    soilMoisture := match p.soilMoisture with
      | none => z0.soilMoisture
      | some ps => some (patchSoilMoistureControl (z0.soilMoisture.getD ⟨0⟩) ps),
    temperature := match p.temperature with
      | none => z0.temperature
      | some pt => some (patchScaleControl (z0.temperature.getD ⟨none, none, none⟩) pt) }

/-- The WaterSchedule block of `Zone.Patch`: a nil target schedule is
initialized to the zero value; empty-string and nil patch fields leave the
target's fields alone. -/
def patchWaterSchedule (z : Option WaterSchedule) (p : WaterSchedule) :
    WaterSchedule :=
  let z0 := z.getD ⟨"", "", none, none⟩
  { duration := if p.duration ≠ "" then p.duration else z0.duration,
    interval := if p.interval ≠ "" then p.interval else z0.interval,
    startTime := if p.startTime.isSome then p.startTime else z0.startTime,
    weatherControl := match p.weatherControl with
      | none => z0.weatherControl
      | some pwc => some (patchWeatherControl z0.weatherControl pwc) }

/-- The Details block of `Zone.Patch`. -/
def patchDetails (z : Option ZoneDetails) (p : ZoneDetails) : ZoneDetails :=
  let z0 := z.getD ⟨"", ""⟩
  { description := if p.description ≠ "" then p.description else z0.description,
    notes := if p.notes ≠ "" then p.notes else z0.notes }

/-- `Zone.Patch`: overwrite the fields of `z` for which the patch carries a
set value; additionally, `EndDate` is cleared when `z` has one and the patch
does not (un-end-dating the zone). -/
def patch (z p : Zone) : Zone :=
  { name := if p.name ≠ "" then p.name else z.name,
    position := if p.position.isSome then p.position else z.position,
    createdAt := if p.createdAt.isSome then p.createdAt else z.createdAt,
    endDate := if z.endDate.isSome ∧ p.endDate = none then none else z.endDate,
    waterSchedule := match p.waterSchedule with
      | none => z.waterSchedule
      | some pws => some (patchWaterSchedule z.waterSchedule pws),
    details := match p.details with
      | none => z.details
      | some pd => some (patchDetails z.details pd) }

/-- C10: `Patch` only overwrites fields set in the patch — every top-level
and nested field whose patch value is unset (empty string, nil, or zero
`MinimumMoisture`) is left unchanged — except that `EndDate` is cleared
whenever `z` has one and the patch does not. -/
theorem patch_frame (z p : Zone) :
    (p.name = "" → (patch z p).name = z.name) ∧
    (p.position = none → (patch z p).position = z.position) ∧
    (p.createdAt = none → (patch z p).createdAt = z.createdAt) ∧
    (p.details = none → (patch z p).details = z.details) ∧
    (p.waterSchedule = none → (patch z p).waterSchedule = z.waterSchedule) ∧
    (z.endDate.isSome = true → p.endDate = none → (patch z p).endDate = none) ∧
    (z.endDate = none → (patch z p).endDate = none) ∧
    (∀ pws, p.waterSchedule = some pws →
      (patch z p).waterSchedule = some (patchWaterSchedule z.waterSchedule pws) ∧
      ∀ zws, z.waterSchedule = some zws →
        (pws.duration = "" →
          (patchWaterSchedule z.waterSchedule pws).duration = zws.duration) ∧
        (pws.interval = "" →
          (patchWaterSchedule z.waterSchedule pws).interval = zws.interval) ∧
        (pws.startTime = none →
          (patchWaterSchedule z.waterSchedule pws).startTime = zws.startTime) ∧
        (pws.weatherControl = none →
          (patchWaterSchedule z.waterSchedule pws).weatherControl =
            zws.weatherControl) ∧
        (∀ pwc zwc psm zsm, pws.weatherControl = some pwc →
          zws.weatherControl = some zwc → pwc.soilMoisture = some psm →
          zwc.soilMoisture = some zsm → psm.minimumMoisture = 0 →
          (patchWeatherControl zws.weatherControl pwc).soilMoisture =
            some ⟨zsm.minimumMoisture⟩)) ∧
    (∀ pd zd, p.details = some pd → z.details = some zd →
      (pd.description = "" → (patchDetails z.details pd).description = zd.description) ∧
      (pd.notes = "" → (patchDetails z.details pd).notes = zd.notes)) := by
  refine ⟨?_, ?_, ?_, ?_, ?_, ?_, ?_, ?_, ?_⟩
  · intro h
    simp [patch, h]
  · intro h
    simp [patch, h]
  · intro h
    simp [patch, h]
  · intro h
    simp [patch, h]
  · intro h
    simp [patch, h]
  · intro hz hp
    simp [patch, hz, hp]
  · intro hz
    simp [patch, hz]
  · intro pws hpws
    constructor
    · simp [patch, hpws]
    · intro zws hzws
      refine ⟨?_, ?_, ?_, ?_, ?_⟩
      · intro h
        simp [patchWaterSchedule, hzws, h]
      · intro h
        simp [patchWaterSchedule, hzws, h]
      · intro h
        simp [patchWaterSchedule, hzws, h]
      · intro h
        simp [patchWaterSchedule, hzws, h]
      · intro pwc zwc psm zsm hpwc hzwc hpsm hzsm hmin
        simp [patchWeatherControl, hzwc, hpwc, hpsm, hzsm,
              patchSoilMoistureControl, hmin]
  · intro pd zd hpd hzd
    constructor
    · intro h
      simp [patchDetails, hzd, h]
    · intro h
      simp [patchDetails, hzd, h]

/-- Target zone for the C10 witness: end-dated, with a name. -/
def zoneTarget : Zone := ⟨"front", none, some 0, none, some 7, none⟩

/-- All-unset patch for the C10 witness. -/
def patchEmpty : Zone := ⟨"", none, none, none, none, none⟩

/-- Witness for C10: an all-unset patch leaves name and position unchanged
and clears the end date. -/
theorem patch_frame_witness :
    (patch zoneTarget patchEmpty).name = zoneTarget.name ∧
    (patch zoneTarget patchEmpty).position = zoneTarget.position ∧
    (patch zoneTarget patchEmpty).endDate = none :=
  ⟨(patch_frame zoneTarget patchEmpty).1 rfl,
   (patch_frame zoneTarget patchEmpty).2.1 rfl,
   (patch_frame zoneTarget patchEmpty).2.2.2.2.2.1 rfl rfl⟩

end ZonePatch
